import Mathlib

/-!
Shallow embedding of `run-lcb-evals.py`, a script that dispatches the
LiveCodeBench custom evaluator over per-model input files and then checks
that every expected output file exists.

The filesystem is modelled as a snapshot (`Fs`): the set of existing regular
files and directories.  The external evaluator process is modelled as a
behaviour parameter `runCmd : String → Except String Unit` (`Except.error`
for a non-zero exit, i.e. `subprocess.CalledProcessError`, or a launch
failure).  Observable behaviour is a list of `Event`s: external process
invocations and printed lines.  The order in which the thread pool's futures
complete is a parameter `completionOrder`, quantified over all permutations
of the task list in the theorems.
-/

namespace LcbEvals

/-- A snapshot of the filesystem: the paths of the existing regular files and
of the existing directories. -/
structure Fs where
  files : List String
  dirs : List String
deriving DecidableEq

/-- Model of `Path(p).is_file()`. -/
def Fs.isFile (fs : Fs) (p : String) : Bool := fs.files.contains p

/-- Model of `Path(p).is_dir()`. -/
def Fs.isDir (fs : Fs) (p : String) : Bool := fs.dirs.contains p

/-- The hardcoded `MODELS` list of the script. -/
def MODELS : List String :=
  ["claude-3-7-sonnet-20250219",
   "codellama-70b",
   "Codestral-2501",
   "DeepSeek-R1",
   "DeepSeek-V3",
   "gpt-4.1-2025-04-14",
   "Llama-3.3-70B-Instruct",
   "qwen-2.5-coder"]

/-- The `LcbModelEvaluationInfo` dataclass: an LLM, a LiveCodeBench input
file, and an expected LiveCodeBench output file. -/
structure LcbModelEvaluationInfo where
  model : String
  lcb_input_file_path : String
  expected_lcb_output_file_path : String
deriving DecidableEq

/-- Python's `s.split(sep)` for a non-empty separator, on character lists,
with explicit fuel (any fuel at least `s.length` gives the true result):
scan left to right, cut at each non-overlapping occurrence of `sep`. -/
def pySplitAux (sep : List Char) : Nat → List Char → List (List Char)
  | _, [] => [[]]
  | 0, s => [s]
  | fuel + 1, c :: cs =>
    if sep.isPrefixOf (c :: cs) then
      [] :: pySplitAux sep fuel ((c :: cs).drop sep.length)
    else
      match pySplitAux sep fuel cs with
      | [] => [[c]]
      | p :: ps => (c :: p) :: ps

/-- Python's `s.split(sep)` for a non-empty separator `sep`. -/
def pySplit (sep s : String) : List String :=
  (pySplitAux sep.data s.data.length s.data).map String.mk

/-- The constant `LCB_OUTPUT_FILE_SUFFIX` of `_get_expected_lcb_output_file`. -/
def LCB_OUTPUT_FILE_SUFFIX : String := "codegeneration_output_eval_all.json"

/-- `_get_expected_lcb_output_file`: take the part of the path before the
first occurrence of `".json"` (the head of `lcb_input_file.split(".json")`)
and append `"_" + LCB_OUTPUT_FILE_SUFFIX`. -/
def _get_expected_lcb_output_file (lcb_input_file : String) : String :=
  let lcb_input_file_without_extension := (pySplit ".json" lcb_input_file).headD ""
  lcb_input_file_without_extension ++ "_" ++ LCB_OUTPUT_FILE_SUFFIX

/-- Matching of a one-star glob pattern `pre ++ "*" ++ post` against a path:
the star matches any run of non-separator characters that does not start
with a dot (glob treats names beginning with `.` as hidden). -/
def globStarMatch (pre post s : List Char) : Bool :=
  (pre.length + post.length ≤ s.length) &&
  pre.isPrefixOf s &&
  post.isSuffixOf s &&
  (let mid := (s.drop pre.length).take (s.length - pre.length - post.length)
   mid.all (fun c => c != '/') && (mid.headD '/' != '.'))

/-- `_get_lcb_input_files_for_model`: the existing files matching the glob
pattern `data/{model}/post-processed/*lcb-formatted.json`. -/
def _get_lcb_input_files_for_model (fs : Fs) (model : String) : List String :=
  fs.files.filter (fun f =>
    globStarMatch ("data/" ++ model ++ "/post-processed/").data "lcb-formatted.json".data f.data)

/-- Lines 73-87 of `main`: build `model_to_lcb_input_files` over `MODELS` and
flatten it into the `model_evaluation_infos` list. -/
def buildModelEvaluationInfos (fs : Fs) : List LcbModelEvaluationInfo :=
  let model_to_lcb_input_files := MODELS.map (fun model => (model, _get_lcb_input_files_for_model fs model))
  model_to_lcb_input_files.flatMap (fun mf =>
    mf.2.map (fun lcb_input_file =>
      { model := mf.1,
        lcb_input_file_path := lcb_input_file,
        expected_lcb_output_file_path := _get_expected_lcb_output_file lcb_input_file }))

/-- Observable events of a run: an external process invocation, or a printed
line. -/
inductive Event where
  | run (cmd : String)
  | print (line : String)
deriving DecidableEq

/-- The command line `cmd_to_run_lcb_for_input_file` built by
`_run_lcb_for_input_file`. -/
def dispatchCmd (lcb_input_file : String) : String :=
  "python -m lcb_runner.runner.custom_evaluator --custom_output_file " ++ lcb_input_file

/-- `_run_lcb_for_input_file`: invoke the evaluator with `check=True`; on a
zero exit print `Finished running: ...`, otherwise propagate the exception. -/
def _run_lcb_for_input_file (runCmd : String → Except String Unit) (lcb_input_file : String) :
    List Event × Except String Unit :=
  let cmd_to_run_lcb_for_input_file := dispatchCmd lcb_input_file
  match runCmd cmd_to_run_lcb_for_input_file with
  | Except.ok _ =>
    ([Event.run cmd_to_run_lcb_for_input_file,
      Event.print ("Finished running: " ++ cmd_to_run_lcb_for_input_file)], Except.ok ())
  | Except.error e => ([Event.run cmd_to_run_lcb_for_input_file], Except.error e)

/-- The diagnostic printed by `main`'s future loop when a task raised. -/
def raisedLine (lcb_input : String) (e : String) : String :=
  "LiveCodeBench run for " ++ lcb_input ++ " raised: " ++ e

/-- The events of one task: its evaluator invocation, and the per-future
exception handling of `main`'s `as_completed` loop (lines 97-102). -/
def taskEvents (runCmd : String → Except String Unit) (info : LcbModelEvaluationInfo) : List Event :=
  match _run_lcb_for_input_file runCmd info.lcb_input_file_path with
  | (evts, Except.ok _) => evts
  | (evts, Except.error e) => evts ++ [Event.print (raisedLine info.lcb_input_file_path e)]

/-- The `Missing LiveCodeBench output file` diagnostic line. -/
def missingOutputLine (expected_lcb_output_file_path : String) : String :=
  "Missing LiveCodeBench output file: " ++ expected_lcb_output_file_path

/-- The `Re-run ...` remediation line printed next to a missing-output
diagnostic. -/
def rerunLine (lcb_input_file_path : String) : String :=
  "Re-run 'python -m lcb_runner.runner.custom_evaluator --custom_output_file " ++ lcb_input_file_path ++ "'"

/-- The loop body of `_check_lcb_evaluation_completeness` for one task:
nothing if the expected output file exists, otherwise the missing-file
diagnostic followed by the remediation line. -/
def checkLinesForTask (fs : Fs) (info : LcbModelEvaluationInfo) : List String :=
  if fs.isFile info.expected_lcb_output_file_path then []
  else [missingOutputLine info.expected_lcb_output_file_path,
        rerunLine info.lcb_input_file_path]

/-- `_check_lcb_evaluation_completeness`: the printed diagnostic lines, in
task order. -/
def _check_lcb_evaluation_completeness (fs : Fs) (model_evaluation_infos : List LcbModelEvaluationInfo) :
    List String :=
  model_evaluation_infos.flatMap (checkLinesForTask fs)

/-- The message of the `assert Path("data/").is_dir()` at the top of `main`. -/
def assertionMessage : String := "No 'data' folder exists to look for LiveCodeBench input files."

/-- The whole of `main`.  `fsPre` is the filesystem snapshot at task-building
time, `fsPost` the snapshot seen by the completeness check after all
evaluator runs, `runCmd` the behaviour of the external evaluator and
`completionOrder` the order in which the pool's futures complete. -/
def main (fsPre fsPost : Fs) (runCmd : String → Except String Unit)
    (completionOrder : List LcbModelEvaluationInfo) : Except String (List Event) :=
  if fsPre.isDir "data/" then
    let model_evaluation_infos := buildModelEvaluationInfos fsPre
    Except.ok (completionOrder.flatMap (taskEvents runCmd) ++
      (_check_lcb_evaluation_completeness fsPost model_evaluation_infos).map Event.print)
  else
    Except.error assertionMessage

/-- The prefix of a string strictly before the first occurrence of `sep`
(the whole string when `sep` does not occur).  This is the specification's
phrase "removes everything from the first occurrence of the `.json`
extension delimiter onward", used to characterise
`_get_expected_lcb_output_file`. -/
def beforeFirstOccur (sep : List Char) : List Char → List Char
  | [] => []
  | c :: cs => if sep.isPrefixOf (c :: cs) then [] else c :: beforeFirstOccur sep cs

/-- Concrete filesystem snapshot used to instantiate the theorems: two input
files under two of the hardcoded models, and the `data/` root. -/
def fsW : Fs :=
  ⟨["data/codellama-70b/post-processed/alcb-formatted.json",
    "data/DeepSeek-R1/post-processed/blcb-formatted.json"], ["data/"]⟩

/-- Concrete empty filesystem snapshot (no files, no directories). -/
def fsEmpty : Fs := ⟨[], []⟩

/-- Concrete evaluator behaviour: the run for codellama's input file fails,
every other run succeeds. -/
def runW : String → Except String Unit := fun c =>
  if c = dispatchCmd "data/codellama-70b/post-processed/alcb-formatted.json" then
    Except.error "boom"
  else Except.ok ()

/-- The task built by `buildModelEvaluationInfos fsW` for codellama's input
file. -/
def infoW : LcbModelEvaluationInfo :=
  ⟨"codellama-70b",
   "data/codellama-70b/post-processed/alcb-formatted.json",
   "data/codellama-70b/post-processed/alcb-formatted_codegeneration_output_eval_all.json"⟩

/-- Python's split never returns an empty list. -/
theorem pySplitAux_ne_nil (sep : List Char) (fuel : Nat) (s : List Char) :
    pySplitAux sep fuel s ≠ [] := by
  induction fuel generalizing s with
  | zero => cases s <;> simp [pySplitAux]
  | succ n ih =>
    cases s with
    | nil => simp [pySplitAux]
    | cons c cs =>
      simp only [pySplitAux]
      split
      · simp
      · split <;> simp

/-- The head of Python's split is the part of the string strictly before the
first occurrence of the separator. -/
theorem pySplitAux_headD (sep : List Char) (fuel : Nat) (s : List Char)
    (hfuel : s.length ≤ fuel) :
    (pySplitAux sep fuel s).headD [] = beforeFirstOccur sep s := by
  induction fuel generalizing s with
  | zero =>
    have hs : s = [] := List.length_eq_zero.mp (Nat.le_zero.mp hfuel)
    subst hs
    simp [pySplitAux, beforeFirstOccur]
  | succ n ih =>
    cases s with
    | nil => simp [pySplitAux, beforeFirstOccur]
    | cons c cs =>
      by_cases h : sep.isPrefixOf (c :: cs) = true
      · simp [pySplitAux, beforeFirstOccur, h]
      · have h2 : cs.length ≤ n := by simpa using hfuel
        have hh := ih cs h2
        cases hres : pySplitAux sep n cs with
        | nil => exact absurd hres (pySplitAux_ne_nil sep n cs)
        | cons p ps =>
          rw [hres] at hh
          simp only [List.headD_cons] at hh
          simp [pySplitAux, beforeFirstOccur, h, hres, hh]

/-- The output-path derivation cuts the input at the first occurrence of
`".json"` and appends `"_" ++ LCB_OUTPUT_FILE_SUFFIX`. -/
theorem get_expected_eq_beforeFirstOccur (s : String) :
    _get_expected_lcb_output_file s =
      String.mk (beforeFirstOccur ".json".data s.data) ++ "_" ++ LCB_OUTPUT_FILE_SUFFIX := by
  have h := pySplitAux_headD ".json".data s.data.length s.data (le_refl _)
  unfold _get_expected_lcb_output_file pySplit
  cases hres : pySplitAux ".json".data s.data.length s.data with
  | nil => exact absurd hres (pySplitAux_ne_nil _ _ _)
  | cons p ps =>
    rw [hres] at h
    simp only [List.headD_cons] at h
    simp only [List.map_cons, List.headD_cons]
    rw [h]

/-- The separator `".json"` cannot straddle the boundary of `X ++ ".json"`:
if it does not occur inside `X`, it is not a prefix of `X ++ ".json"` for
non-empty `X`. -/
theorem json_isPrefixOf_append_false (X : List Char) (hne : X ≠ [])
    (h : ¬ (".json".data <:+: X)) :
    ".json".data.isPrefixOf (X ++ ".json".data) = false := by
  rcases X with _ | ⟨a, _ | ⟨b, _ | ⟨c, _ | ⟨d, _ | ⟨e, rest⟩⟩⟩⟩⟩
  · exact absurd rfl hne
  · simp [List.isPrefixOf]
  · simp [List.isPrefixOf]
  · simp [List.isPrefixOf]
  · simp [List.isPrefixOf]
  · rw [Bool.eq_false_iff]
    intro hp
    apply h
    simp only [List.cons_append, List.isPrefixOf, Bool.and_eq_true, beq_iff_eq] at hp
    obtain ⟨h1, h2, h3, h4, h5, -⟩ := hp
    subst h1; subst h2; subst h3; subst h4; subst h5
    exact ⟨[], rest, rfl⟩

/-- Cutting `X ++ ".json"` at the first occurrence of `".json"` gives back
`X` when the separator does not occur inside `X`. -/
theorem beforeFirstOccur_append_json (X : List Char) (h : ¬ (".json".data <:+: X)) :
    beforeFirstOccur ".json".data (X ++ ".json".data) = X := by
  induction X with
  | nil => decide
  | cons c cs ih =>
    have hp := json_isPrefixOf_append_false (c :: cs) (by simp) h
    have hcs : ¬ (".json".data <:+: cs) := fun hin => h (List.infix_cons hin)
    rw [List.cons_append] at hp
    rw [List.cons_append]
    simp only [beforeFirstOccur, hp]
    simp [ih hcs]

/-- A remediation line never equals a missing-file diagnostic line (their
fixed prefixes differ). -/
theorem rerunLine_ne_missingOutputLine (q p : String) :
    rerunLine q ≠ missingOutputLine p := by
  intro h
  have hd := congrArg String.data h
  simp [rerunLine, missingOutputLine, String.data_append] at hd

/-- C1: the spec's example is wrong about the code.  On the input
`data/m/post-processed/run1.lcb-formatted.json` the derivation cuts at the
first occurrence of `".json"`, which is at the very end of the path, so the
`.lcb-formatted` part survives: the result is not
`data/m/post-processed/run1_codegeneration_output_eval_all.json`. -/
theorem c1_expected_output_path_example_counterexample :
    _get_expected_lcb_output_file "data/m/post-processed/run1.lcb-formatted.json"
      ≠ "data/m/post-processed/run1_codegeneration_output_eval_all.json" := by
  decide

/-- C1 (amended): for the input path
`data/m/post-processed/run1.lcb-formatted.json` the output-path derivation
returns exactly
`data/m/post-processed/run1.lcb-formatted_codegeneration_output_eval_all.json`. -/
theorem c1_expected_output_path_example :
    _get_expected_lcb_output_file "data/m/post-processed/run1.lcb-formatted.json"
      = "data/m/post-processed/run1.lcb-formatted_codegeneration_output_eval_all.json" := by
  decide

/-- C3: if the data root directory `data/` does not exist, `main` aborts with
the assertion failure, and in particular never returns a normal run (so no
task is built and no external invocation event occurs). -/
theorem c3_missing_data_root_aborts (fsPre fsPost : Fs)
    (runCmd : String → Except String Unit) (order : List LcbModelEvaluationInfo)
    (h : fsPre.isDir "data/" = false) :
    main fsPre fsPost runCmd order = Except.error assertionMessage ∧
    ∀ evts : List Event, main fsPre fsPost runCmd order ≠ Except.ok evts := by
  have hm : main fsPre fsPost runCmd order = Except.error assertionMessage := by
    simp [main, h]
  exact ⟨hm, fun evts hok => by rw [hm] at hok; cases hok⟩

/-- Witness for C3 at a concrete empty filesystem. -/
theorem c3_missing_data_root_aborts_witness :
    main fsEmpty fsEmpty (fun _ => Except.ok ()) [] = Except.error assertionMessage ∧
    ∀ evts : List Event, main fsEmpty fsEmpty (fun _ => Except.ok ()) [] ≠ Except.ok evts :=
  c3_missing_data_root_aborts fsEmpty fsEmpty (fun _ => Except.ok ()) [] (by decide)

/-- C6: the output-path derivation is a deterministic function of the input
path string alone (it takes no filesystem snapshot, so there is no
filesystem access by construction): equal input paths always give equal
results. -/
theorem c6_derivation_deterministic (p q : String) (h : p = q) :
    _get_expected_lcb_output_file p = _get_expected_lcb_output_file q :=
  congrArg _ h

/-- Witness for C6 at a concrete path. -/
theorem c6_derivation_deterministic_witness :
    _get_expected_lcb_output_file "data/m/post-processed/run1.lcb-formatted.json"
      = _get_expected_lcb_output_file "data/m/post-processed/run1.lcb-formatted.json" :=
  c6_derivation_deterministic _ _ rfl

/-- C2: the completeness checker handles each task independently; a task
whose expected output file exists contributes no diagnostic, and a task
whose expected output file is absent contributes the missing-file diagnostic
naming that exact path followed by the remediation line, so exactly one of
its printed lines is the diagnostic referencing that exact expected-output
path. -/
theorem c2_completeness_check_per_task (fs : Fs) (info : LcbModelEvaluationInfo) :
    (∀ infos : List LcbModelEvaluationInfo,
        _check_lcb_evaluation_completeness fs infos = infos.flatMap (checkLinesForTask fs)) ∧
    (fs.isFile info.expected_lcb_output_file_path = true → checkLinesForTask fs info = []) ∧
    (fs.isFile info.expected_lcb_output_file_path = false →
      checkLinesForTask fs info =
          [missingOutputLine info.expected_lcb_output_file_path,
           rerunLine info.lcb_input_file_path] ∧
      (checkLinesForTask fs info).countP
          (fun line => line == missingOutputLine info.expected_lcb_output_file_path) = 1) := by
  refine ⟨fun infos => rfl, fun h => by simp [checkLinesForTask, h], fun h => ?_⟩
  have hlines : checkLinesForTask fs info =
      [missingOutputLine info.expected_lcb_output_file_path,
       rerunLine info.lcb_input_file_path] := by
    simp [checkLinesForTask, h]
  refine ⟨hlines, ?_⟩
  rw [hlines]
  simp [List.countP_cons, beq_iff_eq,
    rerunLine_ne_missingOutputLine info.lcb_input_file_path info.expected_lcb_output_file_path]

/-- Witness for C2: a task whose expected output `"o"` exists produces no
lines; with an empty filesystem it produces the two lines, exactly one of
which is the missing-file diagnostic for `"o"`. -/
theorem c2_completeness_check_per_task_witness :
    checkLinesForTask ⟨["o"], []⟩ ⟨"m", "i", "o"⟩ = [] ∧
    (checkLinesForTask fsEmpty ⟨"m", "i", "o"⟩ =
        [missingOutputLine "o", rerunLine "i"] ∧
     (checkLinesForTask fsEmpty ⟨"m", "i", "o"⟩).countP
        (fun line => line == missingOutputLine "o") = 1) :=
  ⟨(c2_completeness_check_per_task ⟨["o"], []⟩ ⟨"m", "i", "o"⟩).2.1 (by decide),
   (c2_completeness_check_per_task fsEmpty ⟨"m", "i", "o"⟩).2.2 (by decide)⟩

/-- C5: the output-path derivation keeps exactly the part of the input path
before the first occurrence of `".json"` and appends the fixed literal
suffix; hence for an input file `X ++ ".json"` whose stem `X` does not
itself contain `".json"`, the expected output is the sibling path
`X ++ "_codegeneration_output_eval_all.json"`. -/
theorem c5_strip_at_first_json (s : String) (X : String)
    (hX : ¬ (".json".data <:+: X.data)) :
    _get_expected_lcb_output_file s =
        String.mk (beforeFirstOccur ".json".data s.data) ++ "_" ++ LCB_OUTPUT_FILE_SUFFIX ∧
    _get_expected_lcb_output_file (X ++ ".json")
        = X ++ "_codegeneration_output_eval_all.json" := by
  refine ⟨get_expected_eq_beforeFirstOccur s, ?_⟩
  rw [get_expected_eq_beforeFirstOccur]
  rw [String.data_append]
  rw [beforeFirstOccur_append_json X.data hX]
  have hmk : String.mk X.data = X := rfl
  rw [hmk, String.append_assoc]
  rfl

/-- Witness for C5 at the stem `data/m/run1`. -/
theorem c5_strip_at_first_json_witness :
    _get_expected_lcb_output_file "data/m/run1" =
        String.mk (beforeFirstOccur ".json".data "data/m/run1".data) ++ "_" ++ LCB_OUTPUT_FILE_SUFFIX ∧
    _get_expected_lcb_output_file ("data/m/run1" ++ ".json")
        = "data/m/run1" ++ "_codegeneration_output_eval_all.json" :=
  c5_strip_at_first_json "data/m/run1" "data/m/run1" (by decide)

/-- C9: for every input path, the remediation line printed by the
completeness checker is exactly `Re-run '` followed by the very command line
the dispatcher executes for that input path, followed by a closing quote. -/
theorem c9_rerun_line_matches_dispatch_cmd (p : String) :
    rerunLine p = "Re-run '" ++ dispatchCmd p ++ "'" := by
  simp only [rerunLine, dispatchCmd, ← String.append_assoc]
  rfl

/-- Number of tasks built from a list of models: the sum over the models of
the number of discovered input files. -/
theorem tasks_length_eq_sum (fs : Fs) (L : List String) :
    ((L.map (fun model => (model, _get_lcb_input_files_for_model fs model))).flatMap
      (fun mf => mf.2.map (fun lcb_input_file =>
        ({ model := mf.1,
           lcb_input_file_path := lcb_input_file,
           expected_lcb_output_file_path := _get_expected_lcb_output_file lcb_input_file }
          : LcbModelEvaluationInfo)))).length
    = (L.map (fun m => (_get_lcb_input_files_for_model fs m).length)).sum := by
  induction L with
  | nil => rfl
  | cons m L ih =>
    simp only [List.map_cons, List.flatMap_cons, List.length_append, List.length_map,
      List.sum_cons, ih]

/-- A model with no discovered input files contributes no task. -/
theorem tasks_filter_model_nil (fs : Fs) (L : List String) (model : String)
    (h : _get_lcb_input_files_for_model fs model = []) :
    (((L.map (fun m => (m, _get_lcb_input_files_for_model fs m))).flatMap
      (fun mf => mf.2.map (fun lcb_input_file =>
        ({ model := mf.1,
           lcb_input_file_path := lcb_input_file,
           expected_lcb_output_file_path := _get_expected_lcb_output_file lcb_input_file }
          : LcbModelEvaluationInfo)))).filter (fun i => i.model == model)).length = 0 := by
  induction L with
  | nil => rfl
  | cons m L ih =>
    simp only [List.map_cons, List.flatMap_cons, List.filter_append, List.length_append, ih,
      Nat.add_zero]
    by_cases hm : m = model
    · subst hm
      rw [h]
      rfl
    · have hnil : ((_get_lcb_input_files_for_model fs m).map (fun lcb_input_file =>
          ({ model := m,
             lcb_input_file_path := lcb_input_file,
             expected_lcb_output_file_path := _get_expected_lcb_output_file lcb_input_file }
            : LcbModelEvaluationInfo))).filter (fun i => i.model == model) = [] := by
        refine List.filter_eq_nil_iff.mpr ?_
        intro i hi
        obtain ⟨f, -, rfl⟩ := List.mem_map.mp hi
        simp [hm]
      rw [hnil]
      rfl

/-- C7: a model with zero matching input files contributes zero tasks, the
total task count is the sum of the per-model match counts, and input-file
discovery returns the empty list whenever nothing matches (it is a total
filter over the snapshot, so a missing directory cannot make it error). -/
theorem c7_task_counts (fs : Fs) :
    (∀ model, _get_lcb_input_files_for_model fs model = [] →
        ((buildModelEvaluationInfos fs).filter (fun i => i.model == model)).length = 0) ∧
    (buildModelEvaluationInfos fs).length
        = (MODELS.map (fun m => (_get_lcb_input_files_for_model fs m).length)).sum ∧
    (∀ model, (∀ f ∈ fs.files,
        globStarMatch ("data/" ++ model ++ "/post-processed/").data
          "lcb-formatted.json".data f.data = false) →
      _get_lcb_input_files_for_model fs model = []) := by
  refine ⟨?_, tasks_length_eq_sum fs MODELS, ?_⟩
  · intro model h
    exact tasks_filter_model_nil fs MODELS model h
  · intro model h
    refine List.filter_eq_nil_iff.mpr ?_
    intro f hf
    simp only [h f hf]
    simp

/-- Witness for C7 at the empty filesystem snapshot. -/
theorem c7_task_counts_witness :
    ((buildModelEvaluationInfos fsEmpty).filter (fun i => i.model == "codellama-70b")).length = 0 ∧
    (buildModelEvaluationInfos fsEmpty).length
        = (MODELS.map (fun m => (_get_lcb_input_files_for_model fsEmpty m).length)).sum ∧
    _get_lcb_input_files_for_model fsEmpty "codellama-70b" = [] :=
  ⟨(c7_task_counts fsEmpty).1 "codellama-70b" (by decide),
   (c7_task_counts fsEmpty).2.1,
   (c7_task_counts fsEmpty).2.2 "codellama-70b" (fun f hf => absurd hf (List.not_mem_nil f))⟩

/-- Characterisation of the events of one task: the invocation, then either
the worker's success print or the loop's exception diagnostic. -/
theorem taskEvents_eq (runCmd : String → Except String Unit) (info : LcbModelEvaluationInfo) :
    taskEvents runCmd info =
      match runCmd (dispatchCmd info.lcb_input_file_path) with
      | Except.ok _ =>
        [Event.run (dispatchCmd info.lcb_input_file_path),
         Event.print ("Finished running: " ++ dispatchCmd info.lcb_input_file_path)]
      | Except.error e =>
        [Event.run (dispatchCmd info.lcb_input_file_path),
         Event.print (raisedLine info.lcb_input_file_path e)] := by
  cases h : runCmd (dispatchCmd info.lcb_input_file_path) <;>
    simp [taskEvents, _run_lcb_for_input_file, h]

/-- Every task's external invocation happens, whatever the evaluator does on
this or any other task. -/
theorem run_mem_taskEvents (runCmd : String → Except String Unit) (info : LcbModelEvaluationInfo) :
    Event.run (dispatchCmd info.lcb_input_file_path) ∈ taskEvents runCmd info := by
  rw [taskEvents_eq]
  cases runCmd (dispatchCmd info.lcb_input_file_path) <;> simp

/-- A failing task is reported with its input path and error text. -/
theorem raised_mem_taskEvents (runCmd : String → Except String Unit)
    (info : LcbModelEvaluationInfo) (e : String)
    (h : runCmd (dispatchCmd info.lcb_input_file_path) = Except.error e) :
    Event.print (raisedLine info.lcb_input_file_path e) ∈ taskEvents runCmd info := by
  rw [taskEvents_eq, h]
  simp

/-- When the data root exists, `main` is the dispatch phase (in completion
order) followed by the completeness check's printed lines. -/
theorem main_ok (fsPre fsPost : Fs) (runCmd : String → Except String Unit)
    (order : List LcbModelEvaluationInfo) (h : fsPre.isDir "data/" = true) :
    main fsPre fsPost runCmd order =
      Except.ok (order.flatMap (taskEvents runCmd) ++
        (_check_lcb_evaluation_completeness fsPost (buildModelEvaluationInfos fsPre)).map
          Event.print) := by
  simp [main, h]

/-- C4: whatever the evaluator behaviour (in particular when other tasks
fail), every built task is dispatched, a failing task is reported with its
input path and error text, and the completeness check still covers every
task; the quantification over all completion orders covers every
interleaving of the worker pool. -/
theorem c4_dispatch_isolation (fsPre fsPost : Fs) (runCmd : String → Except String Unit)
    (order : List LcbModelEvaluationInfo)
    (hdir : fsPre.isDir "data/" = true)
    (hperm : order.Perm (buildModelEvaluationInfos fsPre))
    (info : LcbModelEvaluationInfo) (hmem : info ∈ buildModelEvaluationInfos fsPre) :
    ∃ evts : List Event, main fsPre fsPost runCmd order = Except.ok evts
      ∧ Event.run (dispatchCmd info.lcb_input_file_path) ∈ evts
      ∧ (∀ e, runCmd (dispatchCmd info.lcb_input_file_path) = Except.error e →
          Event.print (raisedLine info.lcb_input_file_path e) ∈ evts)
      ∧ ∀ l ∈ _check_lcb_evaluation_completeness fsPost (buildModelEvaluationInfos fsPre),
          Event.print l ∈ evts := by
  refine ⟨_, main_ok fsPre fsPost runCmd order hdir, ?_, ?_, ?_⟩
  · exact List.mem_append_left _
      (List.mem_flatMap.mpr ⟨info, hperm.mem_iff.mpr hmem, run_mem_taskEvents runCmd info⟩)
  · intro e he
    exact List.mem_append_left _
      (List.mem_flatMap.mpr ⟨info, hperm.mem_iff.mpr hmem, raised_mem_taskEvents runCmd info e he⟩)
  · intro l hl
    exact List.mem_append_right _ (List.mem_map_of_mem _ hl)

/-- Witness for C4: on the concrete snapshot `fsW` with the evaluator
failing on codellama's task, that task is still dispatched and every task is
covered by the check. -/
theorem c4_dispatch_isolation_witness :
    ∃ evts : List Event, main fsW fsEmpty runW (buildModelEvaluationInfos fsW) = Except.ok evts
      ∧ Event.run (dispatchCmd infoW.lcb_input_file_path) ∈ evts
      ∧ (∀ e, runW (dispatchCmd infoW.lcb_input_file_path) = Except.error e →
          Event.print (raisedLine infoW.lcb_input_file_path e) ∈ evts)
      ∧ ∀ l ∈ _check_lcb_evaluation_completeness fsEmpty (buildModelEvaluationInfos fsW),
          Event.print l ∈ evts :=
  c4_dispatch_isolation fsW fsEmpty runW (buildModelEvaluationInfos fsW) (by decide)
    (List.Perm.refl _) infoW (by decide)

/-- C8: for every completion order of the worker pool, `main` returns (the
check never raises) a trace that is a dispatch segment containing every
task's external invocation, followed by the completeness check's output,
which consists of printed lines only — so the check starts only after every
dispatched task has completed or failed. -/
theorem c8_check_after_barrier (fsPre fsPost : Fs) (runCmd : String → Except String Unit)
    (order : List LcbModelEvaluationInfo)
    (hdir : fsPre.isDir "data/" = true)
    (hperm : order.Perm (buildModelEvaluationInfos fsPre)) :
    ∃ d : List Event,
      main fsPre fsPost runCmd order =
        Except.ok (d ++
          (_check_lcb_evaluation_completeness fsPost (buildModelEvaluationInfos fsPre)).map
            Event.print)
      ∧ (∀ info ∈ buildModelEvaluationInfos fsPre,
          Event.run (dispatchCmd info.lcb_input_file_path) ∈ d)
      ∧ (∀ ev ∈ (_check_lcb_evaluation_completeness fsPost (buildModelEvaluationInfos fsPre)).map
            Event.print, ∀ c, ev ≠ Event.run c) := by
  refine ⟨order.flatMap (taskEvents runCmd), main_ok fsPre fsPost runCmd order hdir, ?_, ?_⟩
  · intro info hmem
    exact List.mem_flatMap.mpr ⟨info, hperm.mem_iff.mpr hmem, run_mem_taskEvents runCmd info⟩
  · intro ev hev c
    obtain ⟨l, -, rfl⟩ := List.mem_map.mp hev
    simp

/-- Witness for C8 at the concrete snapshot `fsW` with a failing task. -/
theorem c8_check_after_barrier_witness :
    ∃ d : List Event,
      main fsW fsEmpty runW (buildModelEvaluationInfos fsW) =
        Except.ok (d ++
          (_check_lcb_evaluation_completeness fsEmpty (buildModelEvaluationInfos fsW)).map
            Event.print)
      ∧ (∀ info ∈ buildModelEvaluationInfos fsW,
          Event.run (dispatchCmd info.lcb_input_file_path) ∈ d)
      ∧ (∀ ev ∈ (_check_lcb_evaluation_completeness fsEmpty (buildModelEvaluationInfos fsW)).map
            Event.print, ∀ c, ev ≠ Event.run c) :=
  c8_check_after_barrier fsW fsEmpty runW (buildModelEvaluationInfos fsW) (by decide)
    (List.Perm.refl _)

/-- C10: the output-path derivation is not injective: two distinct input
paths that agree up to their first `.json` occurrence map to the same
expected output path. -/
theorem c10_derivation_not_injective :
    ∃ p q : String, p ≠ q ∧
      _get_expected_lcb_output_file p = _get_expected_lcb_output_file q :=
  ⟨"a.json", "a.jsonb", by decide, by decide⟩

end LcbEvals
